import Mathlib

/-!
# UnionML — Model/Dataset composition and task-synthesis layer, verified

A shallow embedding of the UnionML core (component registry, dataset
abstraction, hyperparameter schema, task synthesizer, model artifact
serialization, local execution engine) together with the two CLI entry
points found in `unionml/cli.py` (the `predict` command's input dispatch
and the `serve` command's custom callback).

The repository's source tree contains only `unionml/cli.py` and the unit
tests; the core `Model`/`Dataset` implementation is absent, so every
definition for it below is modelled from the specification document
(doc comments starting with `Modelled from the spec:`).  The CLI
definitions are translated directly from `unionml/cli.py`.
-/

namespace UnionML

/-- Python-style atomic values, as they appear in keyword-argument
mappings and hyperparameter mappings. -/
inductive PyVal where
  | int (n : Int)
  | float (q : Int)
  | str (s : String)
  | bool (b : Bool)
  | none
  deriving DecidableEq, Repr

/-- A Python keyword-argument mapping: an insertion-ordered association
list from argument name to value (Python `dict[str, Any]`). -/
abbrev Kwargs := List (String × PyVal)

/-- Python `dict` update semantics, `{**d, **o}`: keys already in `d`
keep their position but take `o`'s value when `o` has the key; keys of
`o` that are new are appended in order.  This is the keyword-merge
policy of the dataset abstraction: effective kwargs = stored defaults
with caller-supplied keys overlaid, never a full replace. -/
def dictUpdate (d o : Kwargs) : Kwargs :=
  d.map (fun kv => (kv.1, ((o.lookup kv.1).getD kv.2))) ++
    o.filter (fun kv => (d.lookup kv.1).isNone)


/-! ## Declared types and the hyperparameter schema -/

/-- A declared (annotated) type as it appears on a user function's
signature: base names, the opaque pickled-object type used for model
objects crossing task boundaries, and the composite forms the task
synthesizer needs. -/
inductive Ty where
  | int
  | float
  | str
  | bool
  | dataFrame
  | pickled
  | named (s : String)
  | dict (k v : Ty)
  | listOf (t : Ty)
  deriving DecidableEq, Repr

/-- Modelled from the spec (§4.3): whether a plain value coerces to a
declared field type; Python-style numeric coercion lets an `int` stand
for a declared `float`. -/
def PyVal.checkTy : PyVal → Ty → Bool
  | .int _, .int => true
  | .int _, .float => true
  | .float _, .float => true
  | .str _, .str => true
  | .bool _, .bool => true
  | _, _ => false

/-- The error taxonomy of the spec (§7). -/
inductive Err where
  | notRegistered (role : String)
  | signatureErr (role : String)
  | pipelineErr (stage : String)
  | invalidHyperparameters (keys : List String)
  | noArtifact
  | serializationErr
  deriving DecidableEq, Repr

/-- A hyperparameter schema: the init function's parameter names and
declared types, derived once at registration time. -/
abbrev HypSchema := List (String × Ty)

/-- A raw hyperparameter mapping supplied by the caller. -/
abbrev RawHyp := List (String × PyVal)

/-- Modelled from the spec (§4.3): `coerce(raw)` validates that `raw`'s
keys are a subset of the schema's fields with values of the declared
types, and fails with `InvalidHyperparametersError` listing the unknown
or mistyped keys. -/
def coerceHyp (schema : HypSchema) (raw : RawHyp) : Except Err RawHyp :=
  let bad := raw.filter fun kv =>
    match schema.lookup kv.1 with
    | Option.some t => ! kv.2.checkTy t
    | Option.none => true
  if bad.isEmpty then .ok raw else .error (.invalidHyperparameters (bad.map (·.1)))

/-! ## Dataset abstraction -/

/-- Modelled from the spec (§4.2, §6, and the data model in §3):
a dataset composes a reader, loader, splitter, and parser.  Raw and
loaded data are row lists; the parser is the row-wise feature/target
selection policy (order-preserving, so prediction sequences align with
input rows), parameterized by its kwargs; each of loader/splitter/parser
carries a stored default kwargs bundle. -/
structure SemDataset (RawRow Row Tg : Type) where
  reader : Kwargs → List RawRow
  loader : List RawRow → Kwargs → List RawRow
  splitter : List RawRow → Kwargs → List RawRow × List RawRow
  rowFeatures : Kwargs → RawRow → Row
  rowTargets : Kwargs → RawRow → Tg
  loaderDefaults : Kwargs
  splitterDefaults : Kwargs
  parserDefaults : Kwargs

variable {RawRow Row Tg : Type}

/-- The parser's feature half applied to a whole split. -/
def SemDataset.parseFeatures (d : SemDataset RawRow Row Tg) (kw : Kwargs)
    (rows : List RawRow) : List Row :=
  rows.map (d.rowFeatures kw)

/-- The parser's target half applied to a whole split. -/
def SemDataset.parseTargets (d : SemDataset RawRow Row Tg) (kw : Kwargs)
    (rows : List RawRow) : List Tg :=
  rows.map (d.rowTargets kw)

/-- The four splits produced by `get_data`:
(train features, train targets, test features, test targets). -/
structure DataSplits (Row Tg : Type) where
  trainF : List Row
  trainT : List Tg
  testF : List Row
  testT : List Tg

/-- Modelled from the spec (§4.2): the per-call effective kwargs of a
stage are the stage's stored defaults merged with the caller-supplied
overrides. -/
def SemDataset.effectiveLoaderKwargs (d : SemDataset RawRow Row Tg)
    (loaderKw : Kwargs) : Kwargs :=
  dictUpdate d.loaderDefaults loaderKw

/-- Effective splitter kwargs for one call (defaults overlaid). -/
def SemDataset.effectiveSplitterKwargs (d : SemDataset RawRow Row Tg)
    (splitterKw : Kwargs) : Kwargs :=
  dictUpdate d.splitterDefaults splitterKw

/-- Effective parser kwargs for one call (defaults overlaid). -/
def SemDataset.effectiveParserKwargs (d : SemDataset RawRow Row Tg)
    (parserKw : Kwargs) : Kwargs :=
  dictUpdate d.parserDefaults parserKw

/-- Modelled from the spec (§4.2): run the splitter and parser halves of
the pipeline against already-loaded data (this is the routine the train
task shares with the local engine, where `data` stands in for the
reader's output). -/
def SemDataset.splitsFromLoaded (d : SemDataset RawRow Row Tg)
    (data : List RawRow) (loaderKw splitterKw parserKw : Kwargs) :
    DataSplits Row Tg :=
  let loaded := d.loader data (d.effectiveLoaderKwargs loaderKw)
  let st := d.splitter loaded (d.effectiveSplitterKwargs splitterKw)
  let pkw := d.effectiveParserKwargs parserKw
  ⟨d.parseFeatures pkw st.1, d.parseTargets pkw st.1,
   d.parseFeatures pkw st.2, d.parseTargets pkw st.2⟩

/-- Modelled from the spec (§4.2): `get_data` runs
reader → loader → splitter → parser in that fixed order, merging each
stage's caller-supplied kwargs over the stored defaults. -/
def SemDataset.get_data (d : SemDataset RawRow Row Tg)
    (readerKw loaderKw splitterKw parserKw : Kwargs) : DataSplits Row Tg :=
  d.splitsFromLoaded (d.reader readerKw) loaderKw splitterKw parserKw

/-- Modelled from the spec (§4.2): `get_data` as a state-passing call on
the dataset object, making explicit that the per-call merges build new
kwarg mappings and never reassign the stored defaults. -/
def SemDataset.get_dataCall (d : SemDataset RawRow Row Tg)
    (readerKw loaderKw splitterKw parserKw : Kwargs) :
    DataSplits Row Tg × SemDataset RawRow Row Tg :=
  (d.get_data readerKw loaderKw splitterKw parserKw, d)

/-- Modelled from the spec (§4.2): `get_features` runs only the parser's
feature-extraction half (with the stored parser defaults, i.e. the same
feature-selection policy as train-time parsing) against externally
supplied already-loaded data, bypassing reader/loader/splitter. -/
def SemDataset.get_features (d : SemDataset RawRow Row Tg)
    (rawInput : List RawRow) : List Row :=
  d.parseFeatures d.parserDefaults rawInput

/-! ## Model: component registry, artifact, task synthesis, execution -/

/-- A registered component: the user's function together with its
declared return-type annotation, introspected once at registration. -/
structure RegEntry (α : Type) where
  fn : α
  retTy : Ty

/-- The Model Artifact: an opaque fitted model object plus a mapping
from split-name string to the evaluator's metric value. -/
structure Artifact (M Metric : Type) where
  model_object : M
  metrics : List (String × Metric)

/-- Modelled from the spec (§3, §4.1): the root Model entity — a
component registry (each role an optional slot, last registration wins),
an associated dataset, the hyperparameter schema derived from the init
signature, the reader's and parser's declared types used by the task
synthesizer, an optional initializer-class fallback, and the optional
current artifact. -/
structure Model (RawRow Row Tg M Pred Metric : Type) where
  dataset : SemDataset RawRow Row Tg
  readerRetTy : Ty
  parserFeatureTy : Ty
  hypSchema : HypSchema
  init? : Option (RawHyp → M)
  initCls? : Option (RawHyp → M)
  trainer? : Option (RegEntry (M → List Row → List Tg → M))
  predictor? : Option (RegEntry (M → Row → Pred))
  evaluator? : Option (RegEntry (M → List Row → List Tg → Metric))
  artifact? : Option (Artifact M Metric)

variable {M Pred Metric : Type}

/-- Modelled from the spec (§4.1): accessor for the trainer role,
failing with `NotRegisteredError` naming the role when absent. -/
def Model.trainerE (m : Model RawRow Row Tg M Pred Metric) :
    Except Err (RegEntry (M → List Row → List Tg → M)) :=
  match m.trainer? with
  | Option.some e => .ok e
  | Option.none => .error (.notRegistered "trainer")

/-- Accessor for the predictor role (`NotRegisteredError` when absent). -/
def Model.predictorE (m : Model RawRow Row Tg M Pred Metric) :
    Except Err (RegEntry (M → Row → Pred)) :=
  match m.predictor? with
  | Option.some e => .ok e
  | Option.none => .error (.notRegistered "predictor")

/-- Accessor for the evaluator role (`NotRegisteredError` when absent). -/
def Model.evaluatorE (m : Model RawRow Row Tg M Pred Metric) :
    Except Err (RegEntry (M → List Row → List Tg → Metric)) :=
  match m.evaluator? with
  | Option.some e => .ok e
  | Option.none => .error (.notRegistered "evaluator")

/-- Modelled from the spec (§3): exactly one of the registered init
function and the initializer-class fallback supplies model
construction; if neither is present, initialization fails. -/
def Model.initE (m : Model RawRow Row Tg M Pred Metric) :
    Except Err (RawHyp → M) :=
  match m.init? with
  | Option.some f => .ok f
  | Option.none =>
      match m.initCls? with
      | Option.some f => .ok f
      | Option.none => .error (.notRegistered "init")

/-- The components the training pipeline needs, resolved together. -/
structure TrainComponents (Row Tg M Metric : Type) where
  evaluator : RegEntry (M → List Row → List Tg → Metric)
  trainer : RegEntry (M → List Row → List Tg → M)
  init : RawHyp → M

/-- Modelled from the spec (§4.4, §9): resolve the components the shared
training routine needs.  The evaluator is resolved first because the
task synthesizer reads its declared return type to build the metrics
output type before assembling the executor; the trainer and the
init/init-class fallback follow. -/
def Model.resolveTrainComponents (m : Model RawRow Row Tg M Pred Metric) :
    Except Err (TrainComponents Row Tg M Metric) := do
  let ev ← m.evaluatorE
  let tr ← m.trainerE
  let ini ← m.initE
  .ok ⟨ev, tr, ini⟩

/-- Modelled from the spec (§4.4, §4.6, §9): the one shared training
routine both the local engine and the synthesized train task call —
construct the model via init (or the init-class), fit it with
trainer(model, train features, train targets), and evaluate both splits
to produce metrics for exactly the keys "train" and "test". -/
def trainOnSplits (c : TrainComponents Row Tg M Metric) (hp : RawHyp)
    (splits : DataSplits Row Tg) : Artifact M Metric :=
  let model0 := c.init hp
  let mo := c.trainer.fn model0 splits.trainF splits.trainT
  { model_object := mo,
    metrics := [("train", c.evaluator.fn mo splits.trainF splits.trainT),
                ("test", c.evaluator.fn mo splits.testF splits.testT)] }

/-- Modelled from the spec (§4.6): the local `train` entry point —
resolve components, coerce the hyperparameter mapping against the
schema, run `Dataset.get_data` with the per-call overrides, and run the
shared training routine. -/
def Model.trainEx (m : Model RawRow Row Tg M Pred Metric) (raw : RawHyp)
    (readerKw loaderKw splitterKw parserKw : Kwargs) :
    Except Err (Artifact M Metric) := do
  let c ← m.resolveTrainComponents
  let hp ← coerceHyp m.hypSchema raw
  let splits := m.dataset.get_data readerKw loaderKw splitterKw parserKw
  .ok (trainOnSplits c hp splits)

/-- Modelled from the spec (§4.6): `train` returns
`(model_object, metrics)` and replaces the current artifact on success;
a failed call raises before any mutation, leaving the model unchanged. -/
def Model.train (m : Model RawRow Row Tg M Pred Metric) (raw : RawHyp)
    (readerKw loaderKw splitterKw parserKw : Kwargs) :
    Except Err (M × List (String × Metric)) × Model RawRow Row Tg M Pred Metric :=
  match m.trainEx raw readerKw loaderKw splitterKw parserKw with
  | .ok a => (.ok (a.model_object, a.metrics), { m with artifact? := Option.some a })
  | .error e => (.error e, m)

/-- Modelled from the spec (§4.4): executing the synthesized train task:
`data` stands in for the reader's output, so the task runs
loader → splitter → parser against it and then the shared training
routine. -/
def Model.trainTaskExec (m : Model RawRow Row Tg M Pred Metric) (raw : RawHyp)
    (data : List RawRow) (loaderKw splitterKw parserKw : Kwargs) :
    Except Err (Artifact M Metric) := do
  let c ← m.resolveTrainComponents
  let hp ← coerceHyp m.hypSchema raw
  let splits := m.dataset.splitsFromLoaded data loaderKw splitterKw parserKw
  .ok (trainOnSplits c hp splits)

/-- Modelled from the spec (§4.6): the local `predict` entry point —
requires a current artifact, and calls the predictor directly on the
given features; with no features it runs the full pipeline and uses the
held-out split's features.  The predictor is applied row-wise, so the
ordered prediction sequence aligns with the input rows. -/
def Model.predict (m : Model RawRow Row Tg M Pred Metric)
    (features : Option (List Row))
    (readerKw loaderKw splitterKw parserKw : Kwargs) :
    Except Err (List Pred) := do
  let a ← match m.artifact? with
          | Option.some a => Except.ok a
          | Option.none => Except.error Err.noArtifact
  let p ← m.predictorE
  match features with
  | Option.some fs => .ok (fs.map (p.fn a.model_object))
  | Option.none =>
      let splits := m.dataset.get_data readerKw loaderKw splitterKw parserKw
      .ok (splits.testF.map (p.fn a.model_object))

/-- Modelled from the spec (§4.4): executing the synthesized predict
task — re-derive features from `data` via the dataset parser's feature
half (train-time policy), then call the predictor row-wise. -/
def Model.predictTaskExec (m : Model RawRow Row Tg M Pred Metric) (mo : M)
    (data : List RawRow) : Except Err (List Pred) := do
  let p ← m.predictorE
  .ok ((m.dataset.get_features data).map (p.fn mo))

/-- Modelled from the spec (§4.4): executing the synthesized
predict-from-features task — no dataset parsing at all, the predictor is
called directly on the supplied features. -/
def Model.predictFromFeaturesTaskExec (m : Model RawRow Row Tg M Pred Metric)
    (mo : M) (features : List Row) : Except Err (List Pred) := do
  let p ← m.predictorE
  .ok (features.map (p.fn mo))

/-! ## Task interface synthesis -/

/-- A synthesized task descriptor's typed interface: named, typed
inputs and outputs. -/
structure TaskInterface where
  inputs : List (String × Ty)
  outputs : List (String × Ty)
  deriving DecidableEq, Repr

/-- The declared type of a kwargs input on a synthesized task. -/
def kwargsTy : Ty := Ty.dict Ty.str (Ty.named "Any")

/-- Modelled from the spec (§4.4): the train task's interface — inputs
are the hyperparameter schema type, `data` at the reader's declared
return type, and the optional per-stage kwargs; outputs are the opaque
pickled `model_object` and `metrics` as a mapping from string to the
evaluator's declared return type.  Every type is taken verbatim from
the registered functions' annotations. -/
def Model.train_task (m : Model RawRow Row Tg M Pred Metric) :
    Except Err TaskInterface := do
  let ev ← m.evaluatorE
  let _tr ← m.trainerE
  let _ini ← m.initE
  .ok { inputs := [("hyperparameters", Ty.named "Hyperparameters"),
                   ("data", m.readerRetTy),
                   ("loader_kwargs", kwargsTy),
                   ("splitter_kwargs", kwargsTy),
                   ("parser_kwargs", kwargsTy)],
        outputs := [("model_object", Ty.pickled),
                    ("metrics", Ty.dict Ty.str ev.retTy)] }

/-- Modelled from the spec (§4.4): the predict task's interface —
inputs are the opaque pickled `model_object` and `data` at the reader's
declared return type; the single output has the predictor's declared
return type. -/
def Model.predict_task (m : Model RawRow Row Tg M Pred Metric) :
    Except Err TaskInterface := do
  let p ← m.predictorE
  .ok { inputs := [("model_object", Ty.pickled), ("data", m.readerRetTy)],
        outputs := [("o0", p.retTy)] }

/-- Modelled from the spec (§4.4): the predict-from-features task's
interface — inputs are the opaque pickled `model_object` and `features`
at the parser's feature output type; the single output has the
predictor's declared return type. -/
def Model.predict_from_features_task (m : Model RawRow Row Tg M Pred Metric) :
    Except Err TaskInterface := do
  let p ← m.predictorE
  .ok { inputs := [("model_object", Ty.pickled),
                   ("features", m.parserFeatureTy)],
        outputs := [("o0", p.retTy)] }

/-! ## Model artifact serialization -/

/-- The model object of the repository's tests: a fitted
`LogisticRegression`, observed through its constructor hyperparameters
(`get_params`) and its fitted coefficients and intercept.  Numeric
parameters are carried as integers (a fixed-point view of the floats the
library stores; serialization is byte-exact, so no rounding is
involved). -/
structure LogisticRegression where
  cParam : Int
  maxIter : Int
  coef : List Int
  intercept : Int
  deriving DecidableEq, Repr

/-- The observable constructor parameters, as `get_params` exposes
them. -/
def LogisticRegression.get_params (m : LogisticRegression) :
    List (String × Int) :=
  [("C", m.cParam), ("max_iter", m.maxIter)]

/-- Zigzag encoding of an integer into a natural (one byte-blob cell). -/
def encodeInt : Int → Nat
  | Int.ofNat n => 2 * n
  | Int.negSucc n => 2 * n + 1

/-- Inverse of `encodeInt`. -/
def decodeInt (n : Nat) : Int :=
  if n % 2 = 0 then Int.ofNat (n / 2) else Int.negSucc (n / 2)


/-- Modelled from the spec (§4.5, §6): the persisted form is a single
opaque binary blob representing the model object only — here, an exact
encoding of every observable parameter, length-prefixing the
coefficient vector. -/
def serializeLR (m : LogisticRegression) : List Nat :=
  encodeInt m.cParam :: encodeInt m.maxIter :: m.coef.length ::
    (m.coef.map encodeInt ++ [encodeInt m.intercept])

/-- Modelled from the spec (§4.5): deserialize exactly one model object
from a blob, or fail on a corrupt stream. -/
def deserializeLR : List Nat → Option LogisticRegression
  | c :: mi :: len :: rest =>
      match rest.drop len with
      | [i] => Option.some
          { cParam := decodeInt c, maxIter := decodeInt mi,
            coef := (rest.take len).map decodeInt, intercept := decodeInt i }
      | _ => Option.none
  | _ => Option.none


/-- A serialization target: a file path, or an open in-memory binary
stream (identified by its object identity). -/
inductive SaveTarget where
  | path (p : String)
  | stream (sid : Nat)
  deriving DecidableEq, Repr

/-- The resolved location identifier `save` returns: the path string,
or the stream identity. -/
inductive Location where
  | pathLoc (p : String)
  | streamLoc (sid : Nat)
  deriving DecidableEq, Repr

/-- The world of writable targets: file contents keyed by path, stream
buffers keyed by stream identity (most recent write shadows older
ones, as open-for-truncate does). -/
structure Store where
  files : List (String × List Nat)
  streams : List (Nat × List Nat)

/-- Write a blob to a target (truncating semantics). -/
def Store.write : Store → SaveTarget → List Nat → Store
  | st, .path p, b => { st with files := (p, b) :: st.files }
  | st, .stream sid, b => { st with streams := (sid, b) :: st.streams }

/-- Read the current blob of a target. -/
def Store.read : Store → SaveTarget → Option (List Nat)
  | st, .path p => st.files.lookup p
  | st, .stream sid => st.streams.lookup sid

/-- The resolved location identifier of a target. -/
def locationOf : SaveTarget → Location
  | .path p => .pathLoc p
  | .stream sid => .streamLoc sid

/-- Modelled from the spec (§4.5): `save(target)` serializes the model
object only (metrics are not part of the persisted form), writes it to
the path or the open binary stream, and returns the resolved location
identifier so callers can confirm where the artifact landed. -/
def saveModel (x : LogisticRegression) (t : SaveTarget) (st : Store) :
    Location × Store :=
  (locationOf t, st.write t (serializeLR x))

/-- Modelled from the spec (§4.5): `load(source)` mirrors `save` —
reads the blob from a path or readable binary stream and deserializes
exactly one model object. -/
def loadModel (t : SaveTarget) (st : Store) : Option LogisticRegression :=
  (st.read t).bind deserializeLR


/-! ## A small concrete model, used to instantiate the theorems -/

/-- A concrete dataset over integer rows: identity loader, a head/tail
splitter, identity features, successor targets. -/
def demoDataset : SemDataset Int Int Int where
  reader := fun _ => [1, 2, 3, 4]
  loader := fun rows _ => rows
  splitter := fun rows _ => (rows.take 2, rows.drop 2)
  rowFeatures := fun _ r => r
  rowTargets := fun _ r => r + 1
  loaderDefaults := [("head", PyVal.none)]
  splitterDefaults := [("test_size", PyVal.float 2)]
  parserDefaults := [("features", PyVal.str "x")]

/-- A concrete trainer registration. -/
def demoTrainer : RegEntry (Int → List Int → List Int → Int) :=
  ⟨fun m fs ts => m + fs.length + ts.length, Ty.named "LogisticRegression"⟩

/-- A concrete predictor registration. -/
def demoPredictor : RegEntry (Int → Int → Int) :=
  ⟨fun m r => m * r, Ty.listOf Ty.float⟩

/-- A concrete evaluator registration. -/
def demoEvaluator : RegEntry (Int → List Int → List Int → Int) :=
  ⟨fun m fs _ => m + fs.length, Ty.float⟩

/-- A fully registered concrete model. -/
def demoModel : Model Int Int Int Int Int Int where
  dataset := demoDataset
  readerRetTy := Ty.dataFrame
  parserFeatureTy := Ty.dataFrame
  hypSchema := [("C", Ty.float), ("max_iter", Ty.int)]
  init? := Option.none
  initCls? := Option.some (fun hp => Int.ofNat hp.length)
  trainer? := Option.some demoTrainer
  predictor? := Option.some demoPredictor
  evaluator? := Option.some demoEvaluator
  artifact? := Option.none

/-- The concrete model with the evaluator registration removed. -/
def demoModelNoEval : Model Int Int Int Int Int Int :=
  { demoModel with evaluator? := Option.none }

/-- A valid hyperparameter mapping for `demoModel`'s schema. -/
def demoRaw : RawHyp := [("C", PyVal.float 1), ("max_iter", PyVal.int 1000)]

end UnionML

namespace UnionMLCli

/-! ## `unionml/cli.py` — translated from the source -/

/-- Python truthiness of an optional string: `None` and the empty
string are falsy. -/
def pyTruthyStr : Option String → Bool
  | Option.some s => s != ""
  | Option.none => false

/-- What the `predict` command passes to `model.remote_predict` as
keyword arguments. -/
inductive PredictKwargs (J F : Type) where
  | fromInputs (parsed : J)
  | fromFeatures (feats : F)
  | empty
  deriving DecidableEq, Repr

/-- Translated from `unionml/cli.py`, `predict` (lines 97–105):

    prediction_inputs = \x7b\x7d
    if inputs:
        prediction_inputs.update(json.loads(inputs))
    elif features:
        with features.open() as f:
            features = json.load(f)
        prediction_inputs.update(\x7b"features": model._dataset.get_features(features)\x7d)

`jsonLoads` stands for `json.loads`, `readJson` for opening the
features path and `json.load`-ing it, `getFeatures` for
`model._dataset.get_features`.  Branching is by Python truthiness: a
missing or empty `--inputs` string is falsy; a supplied `--features`
path object is always truthy. -/
def cliPredictKwargs {J F : Type} (jsonLoads : String → J)
    (readJson : String → J) (getFeatures : J → F)
    (inputs : Option String) (features : Option String) : PredictKwargs J F :=
  if pyTruthyStr inputs then .fromInputs (jsonLoads (inputs.getD ""))
  else
    match features with
    | Option.some p => .fromFeatures (getFeatures (readJson p))
    | Option.none => .empty

/-- The observable outcome of the serve command's callback: exit with
code 1 before invoking the server, or delegate to the original uvicorn
callback with the given value of `UNIONML_MODEL_PATH` in the
environment. -/
inductive ServeOutcome where
  | exitOne
  | run (modelPathEnv : Option String)
  deriving DecidableEq, Repr

/-- Translated from `unionml/cli.py`, `custom_callback` (lines
128–143): if `os.getenv("UNIONML_MODEL_PATH")` is truthy (set to a
non-empty string), echo and exit 1; otherwise pop `model_path`; if it
was given but does not exist, exit 1; if it was given and exists, set
`UNIONML_MODEL_PATH` to it; finally delegate to the original
callback.  `envModelPath` is the variable's current value (`None` when
unset), `pathExists` is `Path.exists`. -/
def custom_callback (envModelPath : Option String)
    (model_path : Option String) (pathExists : String → Bool) : ServeOutcome :=
  if pyTruthyStr envModelPath then .exitOne
  else
    match model_path with
    | Option.some p =>
        if pathExists p then .run (Option.some p) else .exitOne
    | Option.none => .run envModelPath

end UnionMLCli


/-! # Theorems -/

namespace UnionML

theorem lookup_append_kw (l₁ l₂ : Kwargs) (k : String) :
    (l₁ ++ l₂).lookup k = ((l₁.lookup k).or (l₂.lookup k)) := by
  induction l₁ with
  | nil => simp [List.lookup]
  | cons hd tl ih =>
      by_cases h : k = hd.1
      · simp [List.lookup, h, Option.or]
      · have h' : (k == hd.1) = false := beq_false_of_ne h
        simp [List.lookup, h', ih]

theorem lookup_map_overlay (d o : Kwargs) (k : String) :
    ((d.map (fun kv => (kv.1, ((o.lookup kv.1).getD kv.2)))).lookup k) =
      (d.lookup k).map (fun v => (o.lookup k).getD v) := by
  induction d with
  | nil => simp [List.lookup]
  | cons hd tl ih =>
      by_cases h : k = hd.1
      · subst h
        simp [List.lookup]
      · have h' : (k == hd.1) = false := beq_false_of_ne h
        simp [List.lookup, h', ih]

theorem lookup_filter_new (d o : Kwargs) (k : String) (hd : d.lookup k = Option.none) :
    ((o.filter (fun kv => (d.lookup kv.1).isNone)).lookup k) = o.lookup k := by
  induction o with
  | nil => simp [List.lookup]
  | cons hd' tl ih =>
      by_cases h : k = hd'.1
      · subst h
        simp [List.filter, hd, List.lookup]
      · have h' : (k == hd'.1) = false := beq_false_of_ne h
        by_cases hk : (d.lookup hd'.1).isNone
        · simp [List.filter, hk, List.lookup, h', ih]
        · simp [List.filter, hk, ih, List.lookup, h']

/-- The key-by-key characterization of the merge: an overridden key
takes the override's value, all other keys keep the stored default. -/
theorem lookup_dictUpdate (d o : Kwargs) (k : String) :
    (dictUpdate d o).lookup k = ((o.lookup k).or (d.lookup k)) := by
  unfold dictUpdate
  rw [lookup_append_kw, lookup_map_overlay]
  cases hdk : d.lookup k with
  | none =>
      simp [lookup_filter_new d o k hdk, Option.or]
      cases o.lookup k <;> simp
  | some v =>
      cases hok : o.lookup k with
      | none => simp [Option.or]
      | some w => simp [Option.or]

/-- Merging an empty override mapping leaves the defaults verbatim. -/
theorem dictUpdate_nil (d : Kwargs) : dictUpdate d [] = d := by
  unfold dictUpdate
  simp [List.lookup]

theorem decodeInt_encodeInt (z : Int) : decodeInt (encodeInt z) = z := by
  cases z with
  | ofNat n => simp [encodeInt, decodeInt, Nat.mul_div_cancel_left]
  | negSucc n =>
      have h : (2 * n + 1) % 2 = 1 := by omega
      simp [encodeInt, decodeInt, h]
      omega

theorem deserializeLR_serializeLR (m : LogisticRegression) :
    deserializeLR (serializeLR m) = Option.some m := by
  have hlen : m.coef.length = (m.coef.map encodeInt).length :=
    (List.length_map _ _).symm
  simp only [serializeLR, deserializeLR]
  rw [hlen, List.drop_left, List.take_left]
  have hmap : m.coef.map (decodeInt ∘ encodeInt) = m.coef := by
    have hfun : decodeInt ∘ encodeInt = id := funext decodeInt_encodeInt
    rw [hfun, List.map_id]
  simp [List.map_map, hmap, decodeInt_encodeInt]

theorem read_write (st : Store) (t : SaveTarget) (b : List Nat) :
    (st.write t b).read t = Option.some b := by
  cases t <;> simp [Store.write, Store.read, List.lookup]

/-! ## Claims -/

/-- C1: for every fitted model_object `x`, `load(save(x))` returns a
model object whose observable fitted parameters (its `get_params`
mapping, coefficients and intercept) are identical to those of `x`,
both when save/load are given a file-path target and when they are
given an in-memory binary stream target. -/
theorem C1_save_load_roundtrip (x : LogisticRegression) (st : Store)
    (p : String) (sid : Nat) :
    (∃ y, loadModel (.path p) (saveModel x (.path p) st).2 = Option.some y ∧
      y.get_params = x.get_params ∧ y.coef = x.coef ∧ y.intercept = x.intercept) ∧
    (∃ y, loadModel (.stream sid) (saveModel x (.stream sid) st).2 = Option.some y ∧
      y.get_params = x.get_params ∧ y.coef = x.coef ∧ y.intercept = x.intercept) := by
  constructor <;>
  · refine ⟨x, ?_, rfl, rfl, rfl⟩
    simp [loadModel, saveModel, read_write, deserializeLR_serializeLR]

/-- C2: for every hyperparameter mapping accepted by the schema,
`train` returns a model_object that is the trainer's output on the
train split (so it inhabits the trainer's declared return type),
together with a metrics mapping whose key set is exactly
\x7b"train", "test"\x7d and whose values are both evaluator outputs (so they
inhabit the evaluator's declared return type). -/
theorem C2_train_output {RawRow Row Tg M Pred Metric : Type}
    (m : Model RawRow Row Tg M Pred Metric)
    (c : TrainComponents Row Tg M Metric) (raw : RawHyp)
    (rkw lkw skw pkw : Kwargs)
    (hc : m.resolveTrainComponents = .ok c)
    (hh : coerceHyp m.hypSchema raw = .ok raw) :
    ∃ mo mets, (m.train raw rkw lkw skw pkw).1 = .ok (mo, mets) ∧
      mets.map Prod.fst = ["train", "test"] ∧
      mo = c.trainer.fn (c.init raw)
        (m.dataset.get_data rkw lkw skw pkw).trainF
        (m.dataset.get_data rkw lkw skw pkw).trainT ∧
      mets.lookup "train" = Option.some (c.evaluator.fn mo
        (m.dataset.get_data rkw lkw skw pkw).trainF
        (m.dataset.get_data rkw lkw skw pkw).trainT) ∧
      mets.lookup "test" = Option.some (c.evaluator.fn mo
        (m.dataset.get_data rkw lkw skw pkw).testF
        (m.dataset.get_data rkw lkw skw pkw).testT) := by
  have htx : m.trainEx raw rkw lkw skw pkw =
      .ok (trainOnSplits c raw (m.dataset.get_data rkw lkw skw pkw)) := by
    simp [Model.trainEx, hc, hh, bind, Except.bind]
  refine ⟨(trainOnSplits c raw (m.dataset.get_data rkw lkw skw pkw)).model_object,
    (trainOnSplits c raw (m.dataset.get_data rkw lkw skw pkw)).metrics,
    ?_, ?_, rfl, ?_, ?_⟩
  · simp [Model.train, htx]
  · simp [trainOnSplits]
  · simp [trainOnSplits, List.lookup]
  · simp [trainOnSplits, List.lookup]

/-- Witness for C2 at the concrete model and the concrete
hyperparameter mapping `demoRaw`. -/
theorem C2_train_output_witness :
    ∃ mo mets, (demoModel.train demoRaw [] [] [] []).1 = .ok (mo, mets) ∧
      mets.map Prod.fst = ["train", "test"] ∧
      mo = demoTrainer.fn (Int.ofNat demoRaw.length)
        (demoModel.dataset.get_data [] [] [] []).trainF
        (demoModel.dataset.get_data [] [] [] []).trainT ∧
      mets.lookup "train" = Option.some (demoEvaluator.fn mo
        (demoModel.dataset.get_data [] [] [] []).trainF
        (demoModel.dataset.get_data [] [] [] []).trainT) ∧
      mets.lookup "test" = Option.some (demoEvaluator.fn mo
        (demoModel.dataset.get_data [] [] [] []).testF
        (demoModel.dataset.get_data [] [] [] []).testT) :=
  C2_train_output demoModel
    ⟨demoEvaluator, demoTrainer, fun hp => Int.ofNat hp.length⟩
    demoRaw [] [] [] [] rfl (by rfl)

/-- C3: for every model_object and every dataset input, the local
engine's `predict` (given the same features the dataset extracts from
that input) and the synthesized predict task (given the input) yield
identical ordered prediction sequences, whose length equals the number
of input rows. -/
theorem C3_predict_task_equivalence {RawRow Row Tg M Pred Metric : Type}
    (m : Model RawRow Row Tg M Pred Metric)
    (p : RegEntry (M → Row → Pred)) (mo : M) (data : List RawRow)
    (mets : List (String × Metric))
    (hp : m.predictor? = Option.some p) :
    ∃ preds, m.predictTaskExec mo data = .ok preds ∧
      ({ m with artifact? := Option.some ⟨mo, mets⟩ }).predict
        (Option.some (m.dataset.get_features data)) [] [] [] [] = .ok preds ∧
      preds.length = data.length := by
  refine ⟨(m.dataset.get_features data).map (p.fn mo), ?_, ?_, ?_⟩
  · simp [Model.predictTaskExec, Model.predictorE, hp, bind, Except.bind]
  · simp [Model.predict, Model.predictorE, hp, bind, Except.bind]
  · simp [SemDataset.get_features, SemDataset.parseFeatures]

/-- Witness for C3 at the concrete model, a concrete model object and
a concrete three-row input. -/
theorem C3_predict_task_equivalence_witness :
    ∃ preds, demoModel.predictTaskExec 5 [1, 2, 3] = .ok preds ∧
      ({ demoModel with artifact? := Option.some ⟨5, []⟩ }).predict
        (Option.some (demoModel.dataset.get_features [1, 2, 3])) [] [] [] [] =
        .ok preds ∧
      preds.length = ([1, 2, 3] : List Int).length :=
  C3_predict_task_equivalence demoModel demoPredictor 5 [1, 2, 3] [] rfl

/-- C4: each declared input and output type on the synthesized tasks is
taken verbatim from the corresponding user function's signature: the
train task's `data` input has the reader's declared return type, its
`metrics` output is a mapping from string to the evaluator's declared
return type (and its `model_object` output is the opaque pickled type),
and the predict task's output has the predictor's declared return type,
its `data` input again the reader's declared return type. -/
theorem C4_task_interface_types {RawRow Row Tg M Pred Metric : Type}
    (m : Model RawRow Row Tg M Pred Metric)
    (ev : RegEntry (M → List Row → List Tg → Metric))
    (tr : RegEntry (M → List Row → List Tg → M))
    (pr : RegEntry (M → Row → Pred)) (ini : RawHyp → M)
    (hEv : m.evaluator? = Option.some ev) (hTr : m.trainer? = Option.some tr)
    (hIni : m.initE = .ok ini) (hPr : m.predictor? = Option.some pr) :
    ∃ ti pi, m.train_task = .ok ti ∧ m.predict_task = .ok pi ∧
      ti.inputs.lookup "data" = Option.some m.readerRetTy ∧
      ti.outputs.lookup "metrics" = Option.some (Ty.dict Ty.str ev.retTy) ∧
      ti.outputs.lookup "model_object" = Option.some Ty.pickled ∧
      pi.inputs.lookup "data" = Option.some m.readerRetTy ∧
      pi.outputs.lookup "o0" = Option.some pr.retTy := by
  refine ⟨⟨[("hyperparameters", Ty.named "Hyperparameters"),
            ("data", m.readerRetTy), ("loader_kwargs", kwargsTy),
            ("splitter_kwargs", kwargsTy), ("parser_kwargs", kwargsTy)],
           [("model_object", Ty.pickled), ("metrics", Ty.dict Ty.str ev.retTy)]⟩,
          ⟨[("model_object", Ty.pickled), ("data", m.readerRetTy)],
           [("o0", pr.retTy)]⟩, ?_, ?_, rfl, rfl, rfl, rfl, rfl⟩
  · simp [Model.train_task, Model.evaluatorE, Model.trainerE, hEv, hTr, hIni,
      bind, Except.bind]
  · simp [Model.predict_task, Model.predictorE, hPr, bind, Except.bind]

/-- Witness for C4 at the concrete model. -/
theorem C4_task_interface_types_witness :
    ∃ ti pi, demoModel.train_task = .ok ti ∧ demoModel.predict_task = .ok pi ∧
      ti.inputs.lookup "data" = Option.some demoModel.readerRetTy ∧
      ti.outputs.lookup "metrics" =
        Option.some (Ty.dict Ty.str demoEvaluator.retTy) ∧
      ti.outputs.lookup "model_object" = Option.some Ty.pickled ∧
      pi.inputs.lookup "data" = Option.some demoModel.readerRetTy ∧
      pi.outputs.lookup "o0" = Option.some demoPredictor.retTy :=
  C4_task_interface_types demoModel demoEvaluator demoTrainer demoPredictor
    (fun hp => Int.ofNat hp.length) rfl rfl rfl rfl

/-- C5: the predict-from-features task's inputs are exactly
\x7bmodel_object, features\x7d with the features input at the parser's
feature output type and the output at the predictor's declared return
type, and executing it calls the predictor directly on the supplied
features, with no dataset parsing. -/
theorem C5_predict_from_features {RawRow Row Tg M Pred Metric : Type}
    (m : Model RawRow Row Tg M Pred Metric)
    (pr : RegEntry (M → Row → Pred)) (mo : M) (fs : List Row)
    (hPr : m.predictor? = Option.some pr) :
    m.predict_from_features_task =
      .ok ⟨[("model_object", Ty.pickled), ("features", m.parserFeatureTy)],
           [("o0", pr.retTy)]⟩ ∧
    m.predictFromFeaturesTaskExec mo fs = .ok (fs.map (pr.fn mo)) := by
  constructor
  · simp [Model.predict_from_features_task, Model.predictorE, hPr, bind,
      Except.bind]
  · simp [Model.predictFromFeaturesTaskExec, Model.predictorE, hPr, bind,
      Except.bind]

/-- Witness for C5 at the concrete model with concrete features. -/
theorem C5_predict_from_features_witness :
    demoModel.predict_from_features_task =
      .ok ⟨[("model_object", Ty.pickled), ("features", demoModel.parserFeatureTy)],
           [("o0", demoPredictor.retTy)]⟩ ∧
    demoModel.predictFromFeaturesTaskExec 5 [1, 2, 3] =
      .ok ([1, 2, 3].map (demoPredictor.fn 5)) :=
  C5_predict_from_features demoModel demoPredictor 5 [1, 2, 3] rfl

/-- C6: `save(target)` returns the resolved location identifier of the
written artifact — the path string for a path target, the stream
identity for an open binary stream target. -/
theorem C6_save_returns_location (x : LogisticRegression) (st : Store)
    (p : String) (sid : Nat) :
    (saveModel x (.path p) st).1 = Location.pathLoc p ∧
    (saveModel x (.stream sid) st).1 = Location.streamLoc sid :=
  ⟨rfl, rfl⟩

/-- C7: for every `get_data` call and per-stage overrides, the effective
kwargs of each stage are the stored defaults with the caller-supplied
keys overlaid (key by key: the override's value when present, otherwise
the default — never a full replace); a stage with no overrides keeps its
defaults verbatim; and the call leaves the dataset's stored defaults
unchanged. -/
theorem C7_kwargs_merge {RawRow Row Tg : Type} (d : SemDataset RawRow Row Tg)
    (readerKw loaderKw splitterKw parserKw : Kwargs) (k : String) :
    ((d.effectiveLoaderKwargs loaderKw).lookup k =
      ((loaderKw.lookup k).or (d.loaderDefaults.lookup k))) ∧
    ((d.effectiveSplitterKwargs splitterKw).lookup k =
      ((splitterKw.lookup k).or (d.splitterDefaults.lookup k))) ∧
    ((d.effectiveParserKwargs parserKw).lookup k =
      ((parserKw.lookup k).or (d.parserDefaults.lookup k))) ∧
    d.effectiveLoaderKwargs [] = d.loaderDefaults ∧
    d.effectiveSplitterKwargs [] = d.splitterDefaults ∧
    d.effectiveParserKwargs [] = d.parserDefaults ∧
    (d.get_dataCall readerKw loaderKw splitterKw parserKw).2 = d :=
  ⟨lookup_dictUpdate _ _ _, lookup_dictUpdate _ _ _, lookup_dictUpdate _ _ _,
   dictUpdate_nil _, dictUpdate_nil _, dictUpdate_nil _, rfl⟩

/-- C8: for every model with no evaluator registered, `train()` fails
with `NotRegisteredError` naming "evaluator" and leaves the model —
in particular its current artifact — unchanged, and train-task
synthesis fails with the same error. -/
theorem C8_missing_evaluator {RawRow Row Tg M Pred Metric : Type}
    (m : Model RawRow Row Tg M Pred Metric) (raw : RawHyp)
    (rkw lkw skw pkw : Kwargs)
    (hEv : m.evaluator? = Option.none) :
    (m.train raw rkw lkw skw pkw).1 = .error (Err.notRegistered "evaluator") ∧
    (m.train raw rkw lkw skw pkw).2 = m ∧
    m.train_task = .error (Err.notRegistered "evaluator") := by
  have he : m.evaluatorE = .error (Err.notRegistered "evaluator") := by
    simp [Model.evaluatorE, hEv]
  have ht : m.trainEx raw rkw lkw skw pkw =
      .error (Err.notRegistered "evaluator") := by
    simp [Model.trainEx, Model.resolveTrainComponents, he, bind, Except.bind]
  refine ⟨?_, ?_, ?_⟩
  · simp [Model.train, ht]
  · simp [Model.train, ht]
  · simp [Model.train_task, he, bind, Except.bind]

/-- Witness for C8 at the concrete model with the evaluator slot
emptied. -/
theorem C8_missing_evaluator_witness :
    (demoModelNoEval.train demoRaw [] [] [] []).1 =
      .error (Err.notRegistered "evaluator") ∧
    (demoModelNoEval.train demoRaw [] [] [] []).2 = demoModelNoEval ∧
    demoModelNoEval.train_task = .error (Err.notRegistered "evaluator") :=
  C8_missing_evaluator demoModelNoEval demoRaw [] [] [] [] rfl

end UnionML

namespace UnionMLCli

/-- C9 counterexample: supplying `--inputs` as the empty string together
with a `--features` path makes the command read the features file
(Python truthiness: the empty string is falsy), so "--inputs takes
precedence and the features file is ignored whenever both are supplied"
fails at this input.  With `json.loads`/`json.load` modelled as
`String.length` and `get_features` as successor, the claim as stated
would require the result `fromInputs 0`. -/
theorem C9_counterexample :
    cliPredictKwargs (fun s => s.length) (fun s => s.length)
        (fun n : Nat => n + 1) (Option.some "") (Option.some "f.json") =
      PredictKwargs.fromFeatures 7 ∧
    cliPredictKwargs (fun s => s.length) (fun s => s.length)
        (fun n : Nat => n + 1) (Option.some "") (Option.some "f.json") ≠
      PredictKwargs.fromInputs 0 := by
  constructor
  · rfl
  · intro h
    cases h

/-- C9 (amended): in the CLI predict command, a non-empty `--inputs`
takes precedence and the features file is ignored; the features path is
read and passed through the dataset's `get_features` exactly when
`--inputs` is absent or empty and `--features` is supplied; when
`--inputs` is absent or empty and `--features` is absent, the remote
predict is invoked with no prediction inputs. -/
theorem C9_predict_input_dispatch {J F : Type} (jsonLoads : String → J)
    (readJson : String → J) (getFeatures : J → F)
    (inputs features : Option String) :
    (∀ s, inputs = Option.some s → s ≠ "" →
      cliPredictKwargs jsonLoads readJson getFeatures inputs features =
        PredictKwargs.fromInputs (jsonLoads s)) ∧
    (∀ p, pyTruthyStr inputs = false → features = Option.some p →
      cliPredictKwargs jsonLoads readJson getFeatures inputs features =
        PredictKwargs.fromFeatures (getFeatures (readJson p))) ∧
    (pyTruthyStr inputs = false → features = Option.none →
      cliPredictKwargs jsonLoads readJson getFeatures inputs features =
        PredictKwargs.empty) := by
  refine ⟨?_, ?_, ?_⟩
  · rintro s rfl hs
    simp [cliPredictKwargs, pyTruthyStr, bne_iff_ne, hs]
  · rintro p ht rfl
    simp [cliPredictKwargs, ht]
  · rintro ht rfl
    simp [cliPredictKwargs, ht]

/-- Witness for C9 (amended), exercising all three branches at concrete
inputs. -/
theorem C9_predict_input_dispatch_witness :
    cliPredictKwargs (fun s => s.length) (fun s => s.length)
        (fun n : Nat => n + 1) (Option.some "ab") (Option.some "p") =
      PredictKwargs.fromInputs 2 ∧
    cliPredictKwargs (fun s => s.length) (fun s => s.length)
        (fun n : Nat => n + 1) Option.none (Option.some "p") =
      PredictKwargs.fromFeatures 2 ∧
    cliPredictKwargs (fun s => s.length) (fun s => s.length)
        (fun n : Nat => n + 1) Option.none Option.none =
      PredictKwargs.empty :=
  ⟨(C9_predict_input_dispatch (fun s => s.length) (fun s => s.length)
      (fun n : Nat => n + 1) (Option.some "ab") (Option.some "p")).1
      "ab" rfl (by decide),
   (C9_predict_input_dispatch (fun s => s.length) (fun s => s.length)
      (fun n : Nat => n + 1) Option.none (Option.some "p")).2.1
      "p" rfl rfl,
   (C9_predict_input_dispatch (fun s => s.length) (fun s => s.length)
      (fun n : Nat => n + 1) Option.none Option.none).2.2 rfl rfl⟩

/-- C10 counterexample: `os.getenv` truthiness — with
`UNIONML_MODEL_PATH` set to the empty string the code's
`if os.getenv("UNIONML_MODEL_PATH"):` guard is falsy, so the callback
delegates to the server instead of exiting with code 1, refuting
"exits whenever the variable is already set". -/
theorem C10_counterexample :
    custom_callback (Option.some "") Option.none (fun _ => true) =
      ServeOutcome.run (Option.some "") ∧
    custom_callback (Option.some "") Option.none (fun _ => true) ≠
      ServeOutcome.exitOne := by
  constructor
  · rfl
  · intro h
    cases h

/-- C10 (amended): the serve command's callback exits with code 1
before invoking the underlying server whenever `UNIONML_MODEL_PATH` is
set to a non-empty value, or whenever `--model-path` is given but does
not exist on disk; otherwise, if `--model-path` is given and exists, it
sets `UNIONML_MODEL_PATH` to that path before delegating to the
original uvicorn callback, and with no `--model-path` it delegates with
the environment untouched. -/
theorem C10_serve_callback (env model_path : Option String)
    (pathExists : String → Bool) :
    (∀ s, env = Option.some s → s ≠ "" →
      custom_callback env model_path pathExists = ServeOutcome.exitOne) ∧
    (∀ p, pyTruthyStr env = false → model_path = Option.some p →
      pathExists p = false →
      custom_callback env model_path pathExists = ServeOutcome.exitOne) ∧
    (∀ p, pyTruthyStr env = false → model_path = Option.some p →
      pathExists p = true →
      custom_callback env model_path pathExists =
        ServeOutcome.run (Option.some p)) ∧
    (pyTruthyStr env = false → model_path = Option.none →
      custom_callback env model_path pathExists = ServeOutcome.run env) := by
  refine ⟨?_, ?_, ?_, ?_⟩
  · rintro s rfl hs
    simp [custom_callback, pyTruthyStr, bne_iff_ne, hs]
  · rintro p ht rfl hex
    simp [custom_callback, ht, hex]
  · rintro p ht rfl hex
    simp [custom_callback, ht, hex]
  · rintro ht rfl
    simp [custom_callback, ht]

/-- Witness for C10 (amended), exercising all four branches at concrete
inputs. -/
theorem C10_serve_callback_witness :
    custom_callback (Option.some "/tmp/m") Option.none (fun _ => true) =
      ServeOutcome.exitOne ∧
    custom_callback Option.none (Option.some "missing") (fun _ => false) =
      ServeOutcome.exitOne ∧
    custom_callback Option.none (Option.some "present") (fun _ => true) =
      ServeOutcome.run (Option.some "present") ∧
    custom_callback Option.none Option.none (fun _ => true) =
      ServeOutcome.run Option.none :=
  ⟨(C10_serve_callback (Option.some "/tmp/m") Option.none (fun _ => true)).1
      "/tmp/m" rfl (by decide),
   (C10_serve_callback Option.none (Option.some "missing") (fun _ => false)).2.1
      "missing" rfl rfl rfl,
   (C10_serve_callback Option.none (Option.some "present") (fun _ => true)).2.2.1
      "present" rfl rfl rfl,
   (C10_serve_callback Option.none Option.none (fun _ => true)).2.2.2 rfl rfl⟩

end UnionMLCli
